import Mathlib

/-!
# Traffic statistics kernel of `components/tft_display/traffic_stats.c`

A shallow embedding of the statistics aggregation and client-registry
kernel.  Machine integers are modelled as `Nat` with explicit reductions
modulo `2 ^ 32` / `2 ^ 64` exactly where the C arithmetic can wrap;
a 6-byte hardware (MAC) address is modelled by its numeric value (two
addresses are `memcmp`-equal iff the values are equal); a possibly-NULL
pointer argument is modelled by `Option`; the bounded-timeout lock
acquisition is modelled by a boolean input `lock_ok` that says whether
`xSemaphoreTake` returned `pdTRUE` within the timeout.
-/

namespace TrafficStats

/-- `MAX_CLIENTS` from `traffic_stats.h`. -/
def MAX_CLIENTS : Nat := 16

/-- `2^32`, the modulus of `uint32_t` arithmetic. -/
def UINT32_LIMIT : Nat := 2 ^ 32

/-- `2^64`, the modulus of `uint64_t` arithmetic. -/
def UINT64_LIMIT : Nat := 2 ^ 64

/-- `uint32_t` subtraction `a - b` (wraps modulo `2^32`). -/
def sub32 (a b : Nat) : Nat :=
  (UINT32_LIMIT + a % UINT32_LIMIT - b % UINT32_LIMIT) % UINT32_LIMIT

/-- `traffic_stats_t` from `traffic_stats.h`. -/
structure traffic_stats_t where
  rx_bytes : Nat
  tx_bytes : Nat
  rx_speed : Nat
  tx_speed : Nat
  peak_rx_speed : Nat
  peak_tx_speed : Nat
  last_update : Nat
  deriving DecidableEq

/-- The all-zero `traffic_stats_t`, as produced by `memset(.., 0, ..)`. -/
def zero_stats : traffic_stats_t :=
  { rx_bytes := 0, tx_bytes := 0, rx_speed := 0, tx_speed := 0,
    peak_rx_speed := 0, peak_tx_speed := 0, last_update := 0 }

/-- `client_stats_t` from `traffic_stats.h`.  The `mac` field models the
6-byte address `uint8_t mac[6]` by its numeric value. -/
structure client_stats_t where
  mac : Nat
  ip : Nat
  rx_bytes : Nat
  tx_bytes : Nat
  last_active : Nat
  active : Bool
  deriving DecidableEq

/-- The all-zero `client_stats_t` record (initial content of every slot). -/
def zero_client : client_stats_t :=
  { mac := 0, ip := 0, rx_bytes := 0, tx_bytes := 0, last_active := 0,
    active := false }

/-- `esp_netif_pair_mac_ip_t`: one entry of the reported station list. -/
structure pair_mac_ip where
  mac : Nat
  ip : Nat
  deriving DecidableEq

/-- The statics of `traffic_stats.c` that the kernel reads and writes:
`g_stats`, `g_clients`, `g_start_time`, `g_initialized`, and the
speed-calculation baselines `prev_rx_bytes`, `prev_tx_bytes`,
`prev_update_time`.  `g_clients` is the 16-slot table, kept as a list of
length `MAX_CLIENTS`. -/
structure SysState where
  g_stats : traffic_stats_t
  g_clients : List client_stats_t
  g_start_time : Nat
  g_initialized : Bool
  prev_rx_bytes : Nat
  prev_tx_bytes : Nat
  prev_update_time : Nat
  deriving DecidableEq

/-- The state right after a successful `traffic_stats_init()` at time `t0`:
everything zeroed, `g_start_time = prev_update_time = t0`. -/
def init_state (t0 : Nat) : SysState :=
  { g_stats := zero_stats,
    g_clients := List.replicate MAX_CLIENTS zero_client,
    g_start_time := t0,
    g_initialized := true,
    prev_rx_bytes := 0,
    prev_tx_bytes := 0,
    prev_update_time := t0 }

/-- The environment inputs consumed by one call to
`traffic_stats_update`: the current time in ms (`get_time_ms()`), the
cumulative byte totals read from the network layer, and the reported
station list (`sta_list_ok` models `esp_wifi_ap_get_sta_list == ESP_OK`;
`sta_list` is `adapter_sta_list.sta[0 .. num)`). -/
structure TickInput where
  current_time : Nat
  total_rx : Nat
  total_tx : Nat
  sta_list_ok : Bool
  sta_list : List pair_mac_ip

/-- Rewrite the first element of the list satisfying `p` through `f`
(leaving the list unchanged when none does).  This models the C pattern
of a linear index scan followed by a write to the found slot. -/
def setFirst (p : client_stats_t → Bool) (f : client_stats_t → client_stats_t) :
    List client_stats_t → List client_stats_t
  | [] => []
  | c :: rest => if p c then f c :: rest else c :: setFirst p f rest

/-- The record written into the chosen slot for a reported station `sta`
at time `t` (lines 240-243: `mac`, `ip`, `active`, `last_active` are
written; the per-client byte counters are left as they were). -/
def write_sta (t : Nat) (sta : pair_mac_ip) (c : client_stats_t) : client_stats_t :=
  { c with mac := sta.mac, ip := sta.ip, active := true, last_active := t }

/-- Processing of one reported station (lines 217-244): find a slot whose
MAC matches (`memcmp == 0`); on miss find the first slot with
`!active && ip == 0`; if a slot was found, write the station into it. -/
def process_sta (t : Nat) (cl : List client_stats_t) (sta : pair_mac_ip) :
    List client_stats_t :=
  if cl.any fun c => c.mac == sta.mac then
    setFirst (fun c => c.mac == sta.mac) (write_sta t sta) cl
  else
    setFirst (fun c => !c.active && c.ip == 0) (write_sta t sta) cl

/-- The client-table update of one tick (lines 211-245): mark every slot
inactive, then process the first `min(num, MAX_CLIENTS)` reported
stations in order. -/
def client_update (t : Nat) (stas : List pair_mac_ip)
    (cl : List client_stats_t) : List client_stats_t :=
  let cleared := cl.map fun c => { c with active := false }
  (stas.take MAX_CLIENTS).foldl (process_sta t) cleared

/-- The body of `traffic_stats_update` once the lock is held
(lines 130-246). -/
def tick (inp : TickInput) (s : SysState) : SysState :=
  let current_time := inp.current_time
  let td0 := sub32 current_time s.prev_update_time
  let time_diff := if td0 = 0 then 1 else td0
  let total_rx := inp.total_rx
  let total_tx := inp.total_tx
  let st1 : traffic_stats_t := { s.g_stats with rx_bytes := total_rx, tx_bytes := total_tx }
  let st2 : traffic_stats_t :=
    if s.prev_rx_bytes > 0 ∧ total_rx ≥ s.prev_rx_bytes then
      { st1 with rx_speed :=
          (total_rx - s.prev_rx_bytes) * 1000 % UINT64_LIMIT / time_diff % UINT32_LIMIT }
    else st1
  let st3 : traffic_stats_t :=
    if s.prev_tx_bytes > 0 ∧ total_tx ≥ s.prev_tx_bytes then
      { st2 with tx_speed :=
          (total_tx - s.prev_tx_bytes) * 1000 % UINT64_LIMIT / time_diff % UINT32_LIMIT }
    else st2
  let st4 : traffic_stats_t :=
    if st3.rx_speed > st3.peak_rx_speed then
      { st3 with peak_rx_speed := st3.rx_speed }
    else st3
  let st5 : traffic_stats_t :=
    if st4.tx_speed > st4.peak_tx_speed then
      { st4 with peak_tx_speed := st4.tx_speed }
    else st4
  let st6 : traffic_stats_t := { st5 with last_update := current_time }
  let clients1 :=
    if inp.sta_list_ok then client_update current_time inp.sta_list s.g_clients
    else s.g_clients
  { s with
    g_stats := st6,
    g_clients := clients1,
    prev_rx_bytes := total_rx,
    prev_tx_bytes := total_tx,
    prev_update_time := current_time }

/-- `traffic_stats_update` (lines 120-249): no-op when not initialized or
when the bounded-timeout lock acquisition fails. -/
def traffic_stats_update (lock_ok : Bool) (inp : TickInput) (s : SysState) : SysState :=
  if s.g_initialized = false then s
  else if lock_ok = false then s
  else tick inp s

/-- `traffic_stats_get` (lines 251-262).  The caller's buffer is an
`Option traffic_stats_t` (`none` = NULL pointer); the result is the
buffer's contents after the call. -/
def traffic_stats_get (lock_ok : Bool) (s : SysState)
    (stats : Option traffic_stats_t) : Option traffic_stats_t :=
  match stats with
  | none => none
  | some buf =>
    if s.g_initialized = false then some zero_stats
    else if lock_ok then some s.g_stats
    else some buf

/-- The copy loop of `traffic_stats_get_clients` (lines 273-278): walk the
table in order, copying `active` records while `count < max_clients`. -/
def collect_clients : List client_stats_t → Nat → List client_stats_t
  | [], _ => []
  | _, 0 => []
  | c :: rest, m + 1 =>
    if c.active then c :: collect_clients rest m
    else collect_clients rest (m + 1)

/-- `traffic_stats_get_clients` (lines 264-283).  `clients_nonnull` models
`clients != NULL`; the result is the list of records copied into the
caller's array (the C return value is its length).  An uninitialized
state, a NULL array, `max_clients <= 0` or a failed lock acquisition all
copy nothing. -/
def traffic_stats_get_clients (lock_ok : Bool) (s : SysState)
    (clients_nonnull : Bool) (max_clients : Int) : List client_stats_t :=
  if s.g_initialized = false ∨ clients_nonnull = false ∨ max_clients ≤ 0 then []
  else if lock_ok then collect_clients s.g_clients max_clients.toNat
  else []

/-- `traffic_stats_reset` (lines 285-298), with `t` the value of
`get_time_ms()` at the call. -/
def traffic_stats_reset (lock_ok : Bool) (t : Nat) (s : SysState) : SysState :=
  if s.g_initialized = false then s
  else if lock_ok then
    { s with g_stats := zero_stats, prev_rx_bytes := 0, prev_tx_bytes := 0,
             g_start_time := t }
  else s

/-- `traffic_stats_reset_peak` (lines 300-311). -/
def traffic_stats_reset_peak (lock_ok : Bool) (s : SysState) : SysState :=
  if s.g_initialized = false then s
  else if lock_ok then
    { s with g_stats :=
        { s.g_stats with peak_rx_speed := 0, peak_tx_speed := 0 } }
  else s

/-- A run of successive update calls, each acquiring the lock
successfully. -/
def run (inps : List TickInput) (s : SysState) : SysState :=
  inps.foldl (fun st i => traffic_stats_update true i st) s

/-- The per-tick trajectory of `rx_speed` along a run. -/
def rx_speed_trace (s : SysState) : List TickInput → List Nat
  | [] => []
  | i :: rest =>
    let s1 := traffic_stats_update true i s
    s1.g_stats.rx_speed :: rx_speed_trace s1 rest

/-- The per-tick trajectory of `tx_speed` along a run. -/
def tx_speed_trace (s : SysState) : List TickInput → List Nat
  | [] => []
  | i :: rest =>
    let s1 := traffic_stats_update true i s
    s1.g_stats.tx_speed :: tx_speed_trace s1 rest

/-- The per-tick trajectory of the pair `(rx_bytes, tx_bytes)` along a
run. -/
def bytes_trace (s : SysState) : List TickInput → List (Nat × Nat)
  | [] => []
  | i :: rest =>
    let s1 := traffic_stats_update true i s
    (s1.g_stats.rx_bytes, s1.g_stats.tx_bytes) :: bytes_trace s1 rest

/-- The client tables reachable from the zero-initialized table by update
ticks (a tick with a failed station-list read leaves the table unchanged,
so only successful client updates need steps). -/
inductive ReachableClients : List client_stats_t → Prop
  | init : ReachableClients (List.replicate MAX_CLIENTS zero_client)
  | step (t : Nat) (stas : List pair_mac_ip) (cl : List client_stats_t) :
      ReachableClients cl → ReachableClients (client_update t stas cl)

/-! ## Basic lemmas about `tick` -/

theorem sub32_of_le {a b : Nat} (hb : b ≤ a) (ha : a < UINT32_LIMIT) :
    sub32 a b = a - b := by
  have hbL : b < UINT32_LIMIT := lt_of_le_of_lt hb ha
  have hd : a - b < UINT32_LIMIT := lt_of_le_of_lt (Nat.sub_le a b) ha
  rw [sub32, Nat.mod_eq_of_lt ha, Nat.mod_eq_of_lt hbL]
  have hsplit : UINT32_LIMIT + a - b = UINT32_LIMIT + (a - b) := by omega
  rw [hsplit, Nat.add_mod_left, Nat.mod_eq_of_lt hd]

theorem if_zero_one_eq_max (n : Nat) : (if n = 0 then 1 else n) = max 1 n := by
  split <;> omega

theorem update_eq_tick {s : SysState} (inp : TickInput)
    (hinit : s.g_initialized = true) :
    traffic_stats_update true inp s = tick inp s := by
  simp [traffic_stats_update, hinit]

theorem tick_prev_rx_bytes (inp : TickInput) (s : SysState) :
    (tick inp s).prev_rx_bytes = inp.total_rx := rfl

theorem tick_prev_tx_bytes (inp : TickInput) (s : SysState) :
    (tick inp s).prev_tx_bytes = inp.total_tx := rfl

theorem tick_prev_update_time (inp : TickInput) (s : SysState) :
    (tick inp s).prev_update_time = inp.current_time := rfl

theorem tick_last_update (inp : TickInput) (s : SysState) :
    (tick inp s).g_stats.last_update = inp.current_time := rfl

theorem tick_g_initialized (inp : TickInput) (s : SysState) :
    (tick inp s).g_initialized = s.g_initialized := rfl

theorem tick_g_clients (inp : TickInput) (s : SysState) :
    (tick inp s).g_clients =
      if inp.sta_list_ok then client_update inp.current_time inp.sta_list s.g_clients
      else s.g_clients := rfl

theorem tick_rx_bytes (inp : TickInput) (s : SysState) :
    (tick inp s).g_stats.rx_bytes = inp.total_rx := by
  simp only [tick, apply_ite (fun st : traffic_stats_t => st.rx_bytes)]
  simp

theorem tick_tx_bytes (inp : TickInput) (s : SysState) :
    (tick inp s).g_stats.tx_bytes = inp.total_tx := by
  simp only [tick, apply_ite (fun st : traffic_stats_t => st.tx_bytes)]
  simp

theorem tick_rx_speed (inp : TickInput) (s : SysState) :
    (tick inp s).g_stats.rx_speed =
      if s.prev_rx_bytes > 0 ∧ inp.total_rx ≥ s.prev_rx_bytes then
        (inp.total_rx - s.prev_rx_bytes) * 1000 % UINT64_LIMIT /
          (if sub32 inp.current_time s.prev_update_time = 0 then 1
           else sub32 inp.current_time s.prev_update_time) % UINT32_LIMIT
      else s.g_stats.rx_speed := by
  simp only [tick, apply_ite (fun st : traffic_stats_t => st.rx_speed)]
  simp

theorem tick_tx_speed (inp : TickInput) (s : SysState) :
    (tick inp s).g_stats.tx_speed =
      if s.prev_tx_bytes > 0 ∧ inp.total_tx ≥ s.prev_tx_bytes then
        (inp.total_tx - s.prev_tx_bytes) * 1000 % UINT64_LIMIT /
          (if sub32 inp.current_time s.prev_update_time = 0 then 1
           else sub32 inp.current_time s.prev_update_time) % UINT32_LIMIT
      else s.g_stats.tx_speed := by
  simp only [tick, apply_ite (fun st : traffic_stats_t => st.tx_speed)]
  simp

theorem tick_peak_rx_speed (inp : TickInput) (s : SysState) :
    (tick inp s).g_stats.peak_rx_speed =
      max s.g_stats.peak_rx_speed (tick inp s).g_stats.rx_speed := by
  simp only [tick, apply_ite (fun st : traffic_stats_t => st.peak_rx_speed),
    apply_ite (fun st : traffic_stats_t => st.rx_speed)]
  simp only [ite_self]
  split_ifs <;> omega

theorem tick_peak_tx_speed (inp : TickInput) (s : SysState) :
    (tick inp s).g_stats.peak_tx_speed =
      max s.g_stats.peak_tx_speed (tick inp s).g_stats.tx_speed := by
  simp only [tick, apply_ite (fun st : traffic_stats_t => st.peak_tx_speed),
    apply_ite (fun st : traffic_stats_t => st.tx_speed)]
  simp only [ite_self]
  split_ifs <;> omega

/-! ## Speed derivation (C3) -/

/-- C3: on a successful tick, with
`time_diff = max(1, current_time - last_update)`, the speed fields are
recomputed as `speed = (delta * 1000) / time_diff` if and only if the new
cumulative total is `>=` the previous sample and the previous sample was
non-zero; when that guard fails the prior speed value is left in place;
the previous-byte baselines and `last_update` are updated
unconditionally.  The hypotheses say that the tick does not straddle a
32-bit time wrap, that the two timestamp copies kept by the code
(`g_stats.last_update` and the static `prev_update_time`) agree — which
every successful tick re-establishes — and that the `uint64`/`uint32`
intermediate results do not overflow. -/
theorem claim_C3 (s : SysState) (inp : TickInput)
    (hinit : s.g_initialized = true)
    (heq : s.g_stats.last_update = s.prev_update_time)
    (hle : s.g_stats.last_update ≤ inp.current_time)
    (hcur : inp.current_time < UINT32_LIMIT)
    (h64rx : (inp.total_rx - s.prev_rx_bytes) * 1000 < UINT64_LIMIT)
    (h64tx : (inp.total_tx - s.prev_tx_bytes) * 1000 < UINT64_LIMIT)
    (h32rx : (inp.total_rx - s.prev_rx_bytes) * 1000 /
        max 1 (inp.current_time - s.g_stats.last_update) < UINT32_LIMIT)
    (h32tx : (inp.total_tx - s.prev_tx_bytes) * 1000 /
        max 1 (inp.current_time - s.g_stats.last_update) < UINT32_LIMIT) :
    (traffic_stats_update true inp s).g_stats.rx_speed =
      (if s.prev_rx_bytes > 0 ∧ inp.total_rx ≥ s.prev_rx_bytes then
        (inp.total_rx - s.prev_rx_bytes) * 1000 /
          max 1 (inp.current_time - s.g_stats.last_update)
      else s.g_stats.rx_speed) ∧
    (traffic_stats_update true inp s).g_stats.tx_speed =
      (if s.prev_tx_bytes > 0 ∧ inp.total_tx ≥ s.prev_tx_bytes then
        (inp.total_tx - s.prev_tx_bytes) * 1000 /
          max 1 (inp.current_time - s.g_stats.last_update)
      else s.g_stats.tx_speed) ∧
    (traffic_stats_update true inp s).prev_rx_bytes = inp.total_rx ∧
    (traffic_stats_update true inp s).prev_tx_bytes = inp.total_tx ∧
    (traffic_stats_update true inp s).g_stats.last_update = inp.current_time ∧
    (traffic_stats_update true inp s).prev_update_time = inp.current_time := by
  rw [update_eq_tick inp hinit]
  rw [heq] at hle h32rx h32tx ⊢
  have hsub : sub32 inp.current_time s.prev_update_time =
      inp.current_time - s.prev_update_time := sub32_of_le hle hcur
  refine ⟨?_, ?_, tick_prev_rx_bytes inp s, tick_prev_tx_bytes inp s,
    tick_last_update inp s, tick_prev_update_time inp s⟩
  · rw [tick_rx_speed, hsub, if_zero_one_eq_max]
    by_cases hg : s.prev_rx_bytes > 0 ∧ inp.total_rx ≥ s.prev_rx_bytes
    · rw [if_pos hg, if_pos hg, Nat.mod_eq_of_lt h64rx, Nat.mod_eq_of_lt h32rx]
    · rw [if_neg hg, if_neg hg]
  · rw [tick_tx_speed, hsub, if_zero_one_eq_max]
    by_cases hg : s.prev_tx_bytes > 0 ∧ inp.total_tx ≥ s.prev_tx_bytes
    · rw [if_pos hg, if_pos hg, Nat.mod_eq_of_lt h64tx, Nat.mod_eq_of_lt h32tx]
    · rw [if_neg hg, if_neg hg]

/-- Witness for C3: second tick one second after a first tick that left
the baselines at 1000 bytes / t = 1000 ms; the rx guard passes (speed
2000 bytes/s), the tx guard fails (`prev_tx_bytes = 0`, prior value
kept), and the baselines are re-stamped. -/
theorem claim_C3_witness :
    (let s : SysState :=
      { g_stats := ⟨1000, 0, 0, 7, 0, 0, 1000⟩,
        g_clients := [], g_start_time := 0, g_initialized := true,
        prev_rx_bytes := 1000, prev_tx_bytes := 0, prev_update_time := 1000 }
     let inp : TickInput := ⟨2000, 3000, 500, false, []⟩
     s.g_initialized = true ∧
     s.g_stats.last_update = s.prev_update_time ∧
     s.g_stats.last_update ≤ inp.current_time ∧
     inp.current_time < UINT32_LIMIT ∧
     ((traffic_stats_update true inp s).g_stats.rx_speed =
        (if s.prev_rx_bytes > 0 ∧ inp.total_rx ≥ s.prev_rx_bytes then
          (inp.total_rx - s.prev_rx_bytes) * 1000 /
            max 1 (inp.current_time - s.g_stats.last_update)
        else s.g_stats.rx_speed) ∧
      (traffic_stats_update true inp s).g_stats.tx_speed =
        (if s.prev_tx_bytes > 0 ∧ inp.total_tx ≥ s.prev_tx_bytes then
          (inp.total_tx - s.prev_tx_bytes) * 1000 /
            max 1 (inp.current_time - s.g_stats.last_update)
        else s.g_stats.tx_speed) ∧
      (traffic_stats_update true inp s).prev_rx_bytes = inp.total_rx ∧
      (traffic_stats_update true inp s).prev_tx_bytes = inp.total_tx ∧
      (traffic_stats_update true inp s).g_stats.last_update = inp.current_time ∧
      (traffic_stats_update true inp s).prev_update_time = inp.current_time)) :=
  ⟨rfl, rfl, by decide, by decide,
   claim_C3 _ _ rfl rfl (by decide) (by decide) (by decide) (by decide)
     (by decide) (by decide)⟩

/-! ## Peak tracking (C4) and cumulative counters (C6) -/

theorem update_g_initialized (lock_ok : Bool) (inp : TickInput) (s : SysState) :
    (traffic_stats_update lock_ok inp s).g_initialized = s.g_initialized := by
  simp only [traffic_stats_update]
  split_ifs <;> rfl

theorem run_peak_rx_speed (inps : List TickInput) :
    ∀ s : SysState, s.g_initialized = true →
      (run inps s).g_stats.peak_rx_speed =
        (rx_speed_trace s inps).foldl max s.g_stats.peak_rx_speed := by
  induction inps with
  | nil => intro s _; rfl
  | cons i rest ih =>
    intro s hinit
    have hs1 : (traffic_stats_update true i s).g_initialized = true := by
      rw [update_g_initialized]; exact hinit
    have hpeak : (traffic_stats_update true i s).g_stats.peak_rx_speed =
        max s.g_stats.peak_rx_speed (traffic_stats_update true i s).g_stats.rx_speed := by
      rw [update_eq_tick i hinit]
      exact tick_peak_rx_speed i s
    calc (run (i :: rest) s).g_stats.peak_rx_speed
        = (run rest (traffic_stats_update true i s)).g_stats.peak_rx_speed := rfl
      _ = (rx_speed_trace (traffic_stats_update true i s) rest).foldl max
            (traffic_stats_update true i s).g_stats.peak_rx_speed := ih _ hs1
      _ = (rx_speed_trace s (i :: rest)).foldl max s.g_stats.peak_rx_speed := by
            rw [hpeak]; rfl

theorem run_peak_tx_speed (inps : List TickInput) :
    ∀ s : SysState, s.g_initialized = true →
      (run inps s).g_stats.peak_tx_speed =
        (tx_speed_trace s inps).foldl max s.g_stats.peak_tx_speed := by
  induction inps with
  | nil => intro s _; rfl
  | cons i rest ih =>
    intro s hinit
    have hs1 : (traffic_stats_update true i s).g_initialized = true := by
      rw [update_g_initialized]; exact hinit
    have hpeak : (traffic_stats_update true i s).g_stats.peak_tx_speed =
        max s.g_stats.peak_tx_speed (traffic_stats_update true i s).g_stats.tx_speed := by
      rw [update_eq_tick i hinit]
      exact tick_peak_tx_speed i s
    calc (run (i :: rest) s).g_stats.peak_tx_speed
        = (run rest (traffic_stats_update true i s)).g_stats.peak_tx_speed := rfl
      _ = (tx_speed_trace (traffic_stats_update true i s) rest).foldl max
            (traffic_stats_update true i s).g_stats.peak_tx_speed := ih _ hs1
      _ = (tx_speed_trace s (i :: rest)).foldl max s.g_stats.peak_tx_speed := by
            rw [hpeak]; rfl

/-- C4: after `traffic_stats_reset_peak`, for every sequence of `N`
successful ticks, `peak_rx_speed` (resp. `peak_tx_speed`) equals the
maximum of the `rx_speed` (resp. `tx_speed`) values the aggregate holds
after each of those `N` ticks (the tick's speed sample, which is the
carried-over prior value on ticks whose regression/startup guard skips
recomputation), with 0 for the empty sequence. -/
theorem claim_C4 (s0 : SysState) (inps : List TickInput)
    (hinit : s0.g_initialized = true) :
    (run inps (traffic_stats_reset_peak true s0)).g_stats.peak_rx_speed =
      (rx_speed_trace (traffic_stats_reset_peak true s0) inps).foldl max 0 ∧
    (run inps (traffic_stats_reset_peak true s0)).g_stats.peak_tx_speed =
      (tx_speed_trace (traffic_stats_reset_peak true s0) inps).foldl max 0 := by
  have hinit1 : (traffic_stats_reset_peak true s0).g_initialized = true := by
    simp only [traffic_stats_reset_peak]
    split_ifs <;> exact hinit
  have hprx : (traffic_stats_reset_peak true s0).g_stats.peak_rx_speed = 0 := by
    simp [traffic_stats_reset_peak, hinit]
  have hptx : (traffic_stats_reset_peak true s0).g_stats.peak_tx_speed = 0 := by
    simp [traffic_stats_reset_peak, hinit]
  constructor
  · rw [run_peak_rx_speed inps _ hinit1, hprx]
  · rw [run_peak_tx_speed inps _ hinit1, hptx]

/-- Witness for C4: two ticks after a peak reset on an initialized state
whose speeds and peaks were nonzero. -/
theorem claim_C4_witness :
    (let s0 : SysState :=
      { g_stats := ⟨1000, 1000, 70, 80, 90, 95, 1000⟩,
        g_clients := [], g_start_time := 0, g_initialized := true,
        prev_rx_bytes := 1000, prev_tx_bytes := 1000, prev_update_time := 1000 }
     let inps : List TickInput :=
       [⟨2000, 3000, 1500, false, []⟩, ⟨3000, 3100, 1600, false, []⟩]
     s0.g_initialized = true ∧
     ((run inps (traffic_stats_reset_peak true s0)).g_stats.peak_rx_speed =
        (rx_speed_trace (traffic_stats_reset_peak true s0) inps).foldl max 0 ∧
      (run inps (traffic_stats_reset_peak true s0)).g_stats.peak_tx_speed =
        (tx_speed_trace (traffic_stats_reset_peak true s0) inps).foldl max 0)) :=
  ⟨rfl, claim_C4 _ _ rfl⟩

theorem bytes_trace_eq (inps : List TickInput) :
    ∀ s : SysState, s.g_initialized = true →
      bytes_trace s inps = inps.map fun i => (i.total_rx, i.total_tx) := by
  induction inps with
  | nil => intro s _; rfl
  | cons i rest ih =>
    intro s hinit
    have hs1 : (traffic_stats_update true i s).g_initialized = true := by
      rw [update_g_initialized]; exact hinit
    have hrx : (traffic_stats_update true i s).g_stats.rx_bytes = i.total_rx := by
      rw [update_eq_tick i hinit]; exact tick_rx_bytes i s
    have htx : (traffic_stats_update true i s).g_stats.tx_bytes = i.total_tx := by
      rw [update_eq_tick i hinit]; exact tick_tx_bytes i s
    show ((traffic_stats_update true i s).g_stats.rx_bytes,
          (traffic_stats_update true i s).g_stats.tx_bytes) ::
        bytes_trace (traffic_stats_update true i s) rest =
      (i.total_rx, i.total_tx) :: rest.map fun j => (j.total_rx, j.total_tx)
    rw [hrx, htx, ih _ hs1]

/-- C6: along any sequence of successful ticks, the `(rx_bytes, tx_bytes)`
snapshot after each tick equals that tick's reported cumulative totals,
and when the reported totals are non-decreasing the snapshot values never
decrease across the sequence. -/
theorem claim_C6 (s : SysState) (inps : List TickInput)
    (hinit : s.g_initialized = true)
    (hmono : List.Chain' (fun a b => a.1 ≤ b.1 ∧ a.2 ≤ b.2)
      (inps.map fun i => (i.total_rx, i.total_tx))) :
    bytes_trace s inps = (inps.map fun i => (i.total_rx, i.total_tx)) ∧
    List.Chain' (fun a b => a.1 ≤ b.1 ∧ a.2 ≤ b.2) (bytes_trace s inps) := by
  have h := bytes_trace_eq inps s hinit
  exact ⟨h, h ▸ hmono⟩

/-- Witness for C6: three ticks with non-decreasing reported totals. -/
theorem claim_C6_witness :
    (let inps : List TickInput :=
       [⟨1000, 1000, 200, false, []⟩, ⟨2000, 3000, 200, false, []⟩,
        ⟨3000, 3000, 900, false, []⟩]
     (init_state 0).g_initialized = true ∧
     List.Chain' (fun a b => a.1 ≤ b.1 ∧ a.2 ≤ b.2)
       (inps.map fun i => (i.total_rx, i.total_tx)) ∧
     (bytes_trace (init_state 0) inps =
        (inps.map fun i => (i.total_rx, i.total_tx)) ∧
      List.Chain' (fun a b => a.1 ≤ b.1 ∧ a.2 ≤ b.2)
        (bytes_trace (init_state 0) inps))) :=
  ⟨rfl, by simp [List.chain'_cons], claim_C6 _ _ rfl (by simp [List.chain'_cons])⟩

/-! ## Client-registry invariant (C2) -/

theorem mem_setFirst {p : client_stats_t → Bool} {f : client_stats_t → client_stats_t}
    {l : List client_stats_t} {x : client_stats_t}
    (hx : x ∈ setFirst p f l) : x ∈ l ∨ ∃ y ∈ l, p y = true ∧ x = f y := by
  induction l with
  | nil => simp [setFirst] at hx
  | cons c rest ih =>
    simp only [setFirst] at hx
    by_cases hc : p c = true
    · rw [if_pos hc] at hx
      rcases List.mem_cons.mp hx with h | h
      · exact Or.inr ⟨c, List.mem_cons_self c rest, hc, h⟩
      · exact Or.inl (List.mem_cons_of_mem _ h)
    · rw [if_neg hc] at hx
      rcases List.mem_cons.mp hx with h | h
      · exact Or.inl (h ▸ List.mem_cons_self c rest)
      · rcases ih h with h1 | ⟨y, hy, hpy, hxy⟩
        · exact Or.inl (List.mem_cons_of_mem _ h1)
        · exact Or.inr ⟨y, List.mem_cons_of_mem _ hy, hpy, hxy⟩

/-- A table slot that has never been written: all-zero, inactive. -/
def untouched (c : client_stats_t) : Prop :=
  c.mac = 0 ∧ c.ip = 0 ∧ c.active = false

/-- The inductive invariant of the client table: whenever an earlier and
a later slot hold the same MAC, the later one has never been written
(duplicates can only be leftovers of the all-zero initial table). -/
def MacInv (cl : List client_stats_t) : Prop :=
  cl.Pairwise fun a b => a.mac = b.mac → untouched b

theorem macInv_clear {cl : List client_stats_t} (h : MacInv cl) :
    MacInv (cl.map fun c => { c with active := false }) := by
  rw [MacInv, List.pairwise_map]
  refine h.imp ?_
  intro a b hab hmac
  obtain ⟨h1, h2, _⟩ := hab hmac
  exact ⟨h1, h2, rfl⟩

theorem macInv_setFirst_match {cl : List client_stats_t} {t : Nat}
    {sta : pair_mac_ip} (h : MacInv cl) :
    MacInv (setFirst (fun c => c.mac == sta.mac) (write_sta t sta) cl) := by
  induction cl with
  | nil => exact List.Pairwise.nil
  | cons c rest ih =>
    rcases List.pairwise_cons.mp h with ⟨hc, hrest⟩
    simp only [setFirst]
    by_cases hpc : (c.mac == sta.mac) = true
    · rw [if_pos hpc]
      refine List.pairwise_cons.mpr ⟨?_, hrest⟩
      intro b hb hmac
      have hcm : c.mac = sta.mac := by simpa using hpc
      exact hc b hb (by rw [hcm]; exact hmac)
    · rw [if_neg hpc]
      refine List.pairwise_cons.mpr ⟨?_, ih hrest⟩
      intro b hb hmac
      rcases mem_setFirst hb with hbmem | ⟨y, _, _, hby⟩
      · exact hc b hbmem hmac
      · exfalso
        apply hpc
        have hbm : b.mac = sta.mac := by rw [hby]; rfl
        simp [hbm ▸ hmac]

theorem macInv_setFirst_alloc {cl : List client_stats_t} {t : Nat}
    {sta : pair_mac_ip} (h : MacInv cl)
    (hmiss : ∀ x ∈ cl, x.mac ≠ sta.mac) :
    MacInv (setFirst (fun c => !c.active && c.ip == 0) (write_sta t sta) cl) := by
  induction cl with
  | nil => exact List.Pairwise.nil
  | cons c rest ih =>
    rcases List.pairwise_cons.mp h with ⟨hc, hrest⟩
    have hmc : c.mac ≠ sta.mac := hmiss c (List.mem_cons_self c rest)
    have hmrest : ∀ x ∈ rest, x.mac ≠ sta.mac :=
      fun x hx => hmiss x (List.mem_cons_of_mem _ hx)
    simp only [setFirst]
    by_cases hq : (!c.active && c.ip == 0) = true
    · rw [if_pos hq]
      refine List.pairwise_cons.mpr ⟨?_, hrest⟩
      intro b hb hmac
      exact absurd hmac.symm (hmrest b hb)
    · rw [if_neg hq]
      refine List.pairwise_cons.mpr ⟨?_, ih hrest hmrest⟩
      intro b hb hmac
      rcases mem_setFirst hb with hbmem | ⟨y, _, _, hby⟩
      · exact hc b hbmem hmac
      · refine absurd ?_ hmc
        rw [hby] at hmac
        exact hmac

theorem macInv_process_sta {cl : List client_stats_t} (t : Nat)
    (sta : pair_mac_ip) (h : MacInv cl) : MacInv (process_sta t cl sta) := by
  rw [process_sta]
  by_cases hany : (cl.any fun c => c.mac == sta.mac) = true
  · rw [if_pos hany]
    exact macInv_setFirst_match h
  · rw [if_neg hany]
    refine macInv_setFirst_alloc h ?_
    intro x hx heq
    apply hany
    rw [List.any_eq_true]
    exact ⟨x, hx, by simp [heq]⟩

theorem macInv_client_update (t : Nat) (stas : List pair_mac_ip)
    (cl : List client_stats_t) (h : MacInv cl) :
    MacInv (client_update t stas cl) := by
  rw [client_update]
  have hfold : ∀ (l : List pair_mac_ip) (cl0 : List client_stats_t),
      MacInv cl0 → MacInv (l.foldl (process_sta t) cl0) := by
    intro l
    induction l with
    | nil => intro cl0 h0; exact h0
    | cons sta rest ih => intro cl0 h0; exact ih _ (macInv_process_sta t sta h0)
  exact hfold _ _ (macInv_clear h)

theorem macInv_reachable {cl : List client_stats_t}
    (h : ReachableClients cl) : MacInv cl := by
  induction h with
  | init =>
    rw [MacInv, List.pairwise_replicate]
    exact Or.inr fun _ => ⟨rfl, rfl, rfl⟩
  | step t stas cl _ ih => exact macInv_client_update t stas cl ih

/-- C2: in every client table reachable from the zero-initialized table
by any sequence of update ticks, no two records with `active == true`
have equal hardware addresses. -/
theorem claim_C2 (cl : List client_stats_t) (h : ReachableClients cl) :
    cl.Pairwise fun a b => a.active = true → b.active = true → a.mac ≠ b.mac := by
  refine (macInv_reachable h).imp ?_
  intro a b hab _ hb heq
  obtain ⟨_, _, hact⟩ := hab heq
  rw [hb] at hact
  cases hact

/-- Witness for C2 at the zero-initialized table. -/
theorem claim_C2_witness :
    (List.replicate MAX_CLIENTS zero_client).Pairwise
      fun a b => a.active = true → b.active = true → a.mac ≠ b.mac :=
  claim_C2 _ ReachableClients.init

/-! ## Snapshot of the active clients (C8) -/

theorem collect_clients_eq (cl : List client_stats_t) :
    ∀ m : Nat, collect_clients cl m = (cl.filter fun c => c.active).take m := by
  induction cl with
  | nil => intro m; cases m <;> rfl
  | cons c rest ih =>
    intro m
    cases m with
    | zero => rfl
    | succ m =>
      by_cases hc : c.active = true
      · simp only [collect_clients, if_pos hc, List.filter_cons_of_pos hc,
          List.take_succ_cons]
        rw [ih m]
      · have hc2 : c.active = false := by
          cases hca : c.active
          · rfl
          · exact absurd hca hc
        simp only [collect_clients, if_neg hc]
        rw [ih (m + 1), List.filter_cons_of_neg]
        simp [hc2]

/-- C8: for every table state and every `max_clients >= 0`, the records
copied out by `traffic_stats_get_clients` number at most `max_clients`
and are all `active`; and whenever the call actually reaches the copy
loop (initialized state, non-NULL array, positive bound, lock acquired)
the result is exactly the `active` records in table order, truncated at
`max_clients`. -/
theorem claim_C8 (lock_ok : Bool) (s : SysState) (nonnull : Bool)
    (max_clients : Int) (_hmax : 0 ≤ max_clients) :
    (traffic_stats_get_clients lock_ok s nonnull max_clients).length ≤
      max_clients.toNat ∧
    (∀ c ∈ traffic_stats_get_clients lock_ok s nonnull max_clients,
      c.active = true) ∧
    (s.g_initialized = true → nonnull = true → 0 < max_clients →
      lock_ok = true →
      traffic_stats_get_clients lock_ok s nonnull max_clients =
        (s.g_clients.filter fun c => c.active).take max_clients.toNat) := by
  refine ⟨?_, ?_, ?_⟩
  · rw [traffic_stats_get_clients]
    split_ifs with h1 h2
    · simp
    · rw [collect_clients_eq]
      exact List.length_take_le _ _
    · simp
  · intro c hc
    rw [traffic_stats_get_clients] at hc
    split_ifs at hc with h1 h2
    · simp at hc
    · rw [collect_clients_eq] at hc
      exact (List.mem_filter.mp (List.take_subset _ _ hc)).2
    · simp at hc
  · intro hinit hnn hpos hlock
    rw [traffic_stats_get_clients]
    rw [if_neg (by simp [hinit, hnn]; omega), if_pos hlock]
    exact collect_clients_eq _ _

/-- Witness for C8 on a table with three active and two inactive records
and `max_clients = 2`. -/
theorem claim_C8_witness :
    (let s : SysState :=
      { g_stats := zero_stats,
        g_clients :=
          [⟨1, 11, 0, 0, 5, true⟩, ⟨2, 12, 0, 0, 5, false⟩,
           ⟨3, 13, 0, 0, 5, true⟩, ⟨4, 0, 0, 0, 5, false⟩,
           ⟨5, 15, 0, 0, 5, true⟩],
        g_start_time := 0, g_initialized := true,
        prev_rx_bytes := 0, prev_tx_bytes := 0, prev_update_time := 0 }
     (0 : Int) ≤ 2 ∧
     ((traffic_stats_get_clients true s true 2).length ≤ (2 : Int).toNat ∧
      (∀ c ∈ traffic_stats_get_clients true s true 2, c.active = true) ∧
      (s.g_initialized = true → true = true → (0 : Int) < 2 → true = true →
        traffic_stats_get_clients true s true 2 =
          (s.g_clients.filter fun c => c.active).take (2 : Int).toNat))) :=
  ⟨by decide, claim_C8 true _ true 2 (by decide)⟩

/-! ## Slot allocation on a miss (C1) -/

theorem setFirst_eq_set {p : client_stats_t → Bool}
    {f : client_stats_t → client_stats_t} {cl : List client_stats_t}
    {j : Nat} {cj : client_stats_t}
    (hj : cl[j]? = some cj) (hcj : p cj = true)
    (hfirst : ∀ i ci, i < j → cl[i]? = some ci → p ci = false) :
    setFirst p f cl = cl.set j (f cj) := by
  induction cl generalizing j with
  | nil => simp at hj
  | cons c rest ih =>
    cases j with
    | zero =>
      obtain rfl : c = cj := by simpa using hj
      simp only [setFirst, if_pos hcj, List.set_cons_zero]
    | succ j =>
      have hc0 : p c = false := hfirst 0 c (Nat.succ_pos j) (by simp)
      simp only [setFirst, List.set_cons_succ]
      rw [if_neg (by simp [hc0])]
      congr 1
      refine ih (by simpa using hj) ?_
      intro i ci hi hci
      exact hfirst (i + 1) ci (Nat.succ_lt_succ hi) (by simpa using hci)

/-- Counterexample to C1 as stated: slot 0 is the first slot with
`active == false`, a new address 2 is reported and matches no slot, yet
the registry does not assign it to slot 0 (whose stale record, with a
nonzero recorded IP, survives untouched) but to slot 1. -/
theorem claim_C1_counterexample :
    (let cl : List client_stats_t :=
       ⟨1, 7, 0, 0, 3, false⟩ :: List.replicate 15 zero_client
     (∀ x ∈ cl, x.mac ≠ 2) ∧
     cl[0]?.map (fun c => c.active) = some false ∧
     (process_sta 5 cl ⟨2, 8⟩)[0]? = some ⟨1, 7, 0, 0, 3, false⟩ ∧
     (process_sta 5 cl ⟨2, 8⟩)[1]? = some ⟨2, 8, 0, 0, 5, true⟩) := by
  decide

/-- C1 amended: on a miss, the registry assigns the reported identity to
the first slot with `active == false` AND `ip == 0` (any stale address in
that slot is silently overwritten); an inactive slot whose recorded IP is
nonzero is not eligible. -/
theorem claim_C1_amended (t : Nat) (cl : List client_stats_t)
    (sta : pair_mac_ip) (hmiss : ∀ x ∈ cl, x.mac ≠ sta.mac)
    (j : Nat) (cj : client_stats_t) (hj : cl[j]? = some cj)
    (hfree : cj.active = false ∧ cj.ip = 0)
    (hfirst : ∀ i ci, i < j → cl[i]? = some ci →
      ¬(ci.active = false ∧ ci.ip = 0)) :
    process_sta t cl sta = cl.set j (write_sta t sta cj) := by
  rw [process_sta]
  have hany : (cl.any fun c => c.mac == sta.mac) = false := by
    rw [List.any_eq_false]
    intro x hx
    simpa using hmiss x hx
  rw [if_neg (by simp [hany])]
  refine setFirst_eq_set hj (by simp [hfree.1, hfree.2]) ?_
  intro i ci hi hci
  have hni := hfirst i ci hi hci
  cases hca : ci.active with
  | true => simp [hca]
  | false =>
    have hip : ci.ip ≠ 0 := fun h0 => hni ⟨hca, h0⟩
    simp [hca, hip]

/-- Witness for the amended C1: with slot 0 inactive but holding a
nonzero IP, a fresh address is written into slot 1, overwriting that
never-used slot. -/
theorem claim_C1_amended_witness :
    (let cl : List client_stats_t :=
       ⟨1, 7, 0, 0, 3, false⟩ :: List.replicate 15 zero_client
     (∀ x ∈ cl, x.mac ≠ (2 : Nat)) ∧
     cl[1]? = some zero_client ∧
     (zero_client.active = false ∧ zero_client.ip = 0) ∧
     process_sta 5 cl ⟨2, 8⟩ = cl.set 1 (write_sta 5 ⟨2, 8⟩ zero_client)) :=
  ⟨by decide, by decide, by decide,
   claim_C1_amended 5 _ ⟨2, 8⟩ (by decide) 1 zero_client (by decide)
     (by decide)
     (by
       intro i ci hi hci
       interval_cases i
       have : ci = (⟨1, 7, 0, 0, 3, false⟩ : client_stats_t) := by
         simpa using hci.symm
       subst this
       decide)⟩

/-! ## Capacity overflow on a fresh table (C9) -/

theorem setFirst_append_of_forall {p : client_stats_t → Bool}
    {f : client_stats_t → client_stats_t} {A B : List client_stats_t}
    (hA : ∀ x ∈ A, p x = false) :
    setFirst p f (A ++ B) = A ++ setFirst p f B := by
  induction A with
  | nil => rfl
  | cons a A ih =>
    have ha := hA a (List.mem_cons_self a A)
    have ih2 := ih fun x hx => hA x (List.mem_cons_of_mem _ hx)
    show setFirst p f (a :: (A ++ B)) = a :: (A ++ setFirst p f B)
    simp only [setFirst]
    rw [if_neg (by simp [ha]), ih2]

theorem process_sta_fresh (t : Nat) (done : List pair_mac_ip)
    (sta : pair_mac_ip) (k : Nat) (hk : 0 < k)
    (hnew : ∀ d ∈ done, d.mac ≠ sta.mac) :
    process_sta t
      ((done.map fun d => write_sta t d zero_client) ++
        List.replicate k zero_client) sta =
      (done.map fun d => write_sta t d zero_client) ++
        (write_sta t sta zero_client :: List.replicate (k - 1) zero_client) := by
  obtain ⟨k2, rfl⟩ : ∃ k2, k = k2 + 1 := ⟨k - 1, by omega⟩
  rw [List.replicate_succ]
  have hDmac : ∀ x ∈ done.map fun d => write_sta t d zero_client,
      (x.mac == sta.mac) = false := by
    intro x hx
    obtain ⟨d, hd, rfl⟩ := List.mem_map.mp hx
    simpa [write_sta] using hnew d hd
  have hDq : ∀ x ∈ done.map fun d => write_sta t d zero_client,
      (!x.active && x.ip == 0) = false := by
    intro x hx
    obtain ⟨d, _, rfl⟩ := List.mem_map.mp hx
    rfl
  rw [process_sta]
  by_cases hz : sta.mac = 0
  · have hany : (((done.map fun d => write_sta t d zero_client) ++
        zero_client :: List.replicate k2 zero_client).any
          fun c => c.mac == sta.mac) = true := by
      rw [List.any_eq_true]
      exact ⟨zero_client, by simp, by simp [zero_client, hz]⟩
    rw [if_pos hany, setFirst_append_of_forall hDmac]
    congr 1
    simp only [setFirst]
    rw [if_pos (by simp [zero_client, hz])]
    simp
  · have hany : (((done.map fun d => write_sta t d zero_client) ++
        zero_client :: List.replicate k2 zero_client).any
          fun c => c.mac == sta.mac) = false := by
      rw [List.any_eq_false]
      intro x hx
      rcases List.mem_append.mp hx with h | h
      · simp [hDmac x h]
      · have hx0 : x = zero_client := by
          rcases List.mem_cons.mp h with h0 | h0
          · exact h0
          · exact (List.mem_replicate.mp h0).2
        subst hx0
        simp only [beq_iff_eq]
        exact fun h0 => hz h0.symm
    rw [if_neg (by simp [hany]), setFirst_append_of_forall hDq]
    congr 1

theorem client_update_fresh_aux (t : Nat) (stas : List pair_mac_ip) :
    ∀ (done : List pair_mac_ip) (k : Nat),
      stas.length ≤ k →
      (∀ d ∈ done, ∀ x ∈ stas, d.mac ≠ x.mac) →
      stas.Pairwise (fun a b => a.mac ≠ b.mac) →
      stas.foldl (process_sta t)
        ((done.map fun d => write_sta t d zero_client) ++
          List.replicate k zero_client) =
      ((done ++ stas).map fun d => write_sta t d zero_client) ++
        List.replicate (k - stas.length) zero_client := by
  induction stas with
  | nil => intro done k _ _ _; simp
  | cons sta rest ih =>
    intro done k hk hdisj hpair
    have hk0 : 0 < k := by
      simp only [List.length_cons] at hk
      omega
    rw [List.foldl_cons]
    rw [process_sta_fresh t done sta k hk0
      (fun d hd => hdisj d hd sta (List.mem_cons_self sta rest))]
    have hshape : (done.map fun d => write_sta t d zero_client) ++
        (write_sta t sta zero_client :: List.replicate (k - 1) zero_client) =
        ((done ++ [sta]).map fun d => write_sta t d zero_client) ++
          List.replicate (k - 1) zero_client := by
      simp
    rw [hshape]
    have hdisj2 : ∀ d ∈ done ++ [sta], ∀ x ∈ rest, d.mac ≠ x.mac := by
      intro d hd x hx
      rcases List.mem_append.mp hd with h | h
      · exact hdisj d h x (List.mem_cons_of_mem _ hx)
      · rw [List.mem_singleton.mp h]
        exact (List.pairwise_cons.mp hpair).1 x hx
    have hlen2 : rest.length ≤ k - 1 := by
      simp only [List.length_cons] at hk
      omega
    rw [ih (done ++ [sta]) (k - 1) hlen2 hdisj2 (List.pairwise_cons.mp hpair).2]
    have hcount : k - 1 - rest.length = k - (sta :: rest).length := by
      simp only [List.length_cons]
      omega
    rw [hcount]
    have hlist : (done ++ [sta]) ++ rest = done ++ sta :: rest := by simp
    rw [hlist]

theorem client_update_fresh (t : Nat) (stas : List pair_mac_ip)
    (hdistinct : stas.Pairwise fun a b => a.mac ≠ b.mac) :
    client_update t stas (List.replicate MAX_CLIENTS zero_client) =
      ((stas.take MAX_CLIENTS).map fun d => write_sta t d zero_client) ++
        List.replicate (MAX_CLIENTS - (stas.take MAX_CLIENTS).length)
          zero_client := by
  simp only [client_update]
  have hclear : (List.replicate MAX_CLIENTS zero_client).map
      (fun c => { c with active := false }) =
      List.replicate MAX_CLIENTS zero_client := by
    rw [List.map_replicate]
    rfl
  rw [hclear]
  have hmain := client_update_fresh_aux t (stas.take MAX_CLIENTS) [] MAX_CLIENTS
    (by have := List.length_take_le MAX_CLIENTS stas; omega) (by simp)
    (hdistinct.sublist (List.take_sublist _ _))
  simpa using hmain

/-- C9: when 20 reported clients with pairwise-distinct hardware
addresses arrive in one tick against the freshly-initialized 16-slot
table, the active records after the tick are exactly the first 16
reported clients in report order (first-come, first-served), so exactly
16 become active, and the 4 excess addresses are absent from every
`traffic_stats_get_clients` result on the post-tick state; the update
raises no error (it is a total function of the state). -/
theorem claim_C9 (t0 : Nat) (inp : TickInput)
    (hok : inp.sta_list_ok = true)
    (hlen : inp.sta_list.length = 20)
    (hdistinct : inp.sta_list.Pairwise fun a b => a.mac ≠ b.mac) :
    ((traffic_stats_update true inp (init_state t0)).g_clients.filter
        fun c => c.active) =
      (inp.sta_list.take 16).map
        (fun d => write_sta inp.current_time d zero_client) ∧
    ((traffic_stats_update true inp (init_state t0)).g_clients.filter
        fun c => c.active).length = 16 ∧
    (∀ (lock_ok nonnull : Bool) (max_clients : Int),
      ∀ d ∈ inp.sta_list.drop 16,
        ∀ c ∈ traffic_stats_get_clients lock_ok
            (traffic_stats_update true inp (init_state t0)) nonnull max_clients,
          c.mac ≠ d.mac) := by
  have hclients : (traffic_stats_update true inp (init_state t0)).g_clients =
      (inp.sta_list.take 16).map
        (fun d => write_sta inp.current_time d zero_client) := by
    rw [update_eq_tick inp rfl, tick_g_clients, hok, if_pos rfl]
    show client_update inp.current_time inp.sta_list
        (List.replicate MAX_CLIENTS zero_client) = _
    rw [client_update_fresh inp.current_time inp.sta_list hdistinct]
    have htl : (inp.sta_list.take MAX_CLIENTS).length = 16 := by
      rw [List.length_take, hlen]
      decide
    rw [htl]
    show _ ++ List.replicate (16 - 16) zero_client = _
    simp [MAX_CLIENTS]
  have hall : ∀ c ∈ (inp.sta_list.take 16).map
      (fun d => write_sta inp.current_time d zero_client), c.active = true := by
    intro c hc
    obtain ⟨d, _, rfl⟩ := List.mem_map.mp hc
    rfl
  have hfilter : ((traffic_stats_update true inp (init_state t0)).g_clients.filter
      fun c => c.active) =
      (inp.sta_list.take 16).map
        (fun d => write_sta inp.current_time d zero_client) := by
    rw [hclients]
    exact List.filter_eq_self.mpr hall
  refine ⟨hfilter, ?_, ?_⟩
  · rw [hfilter, List.length_map, List.length_take, hlen]
    decide
  · intro lock_ok nonnull max_clients d hd c hc
    have hcross : ∀ a ∈ inp.sta_list.take 16, ∀ b ∈ inp.sta_list.drop 16,
        a.mac ≠ b.mac := by
      have hsplit : inp.sta_list.take 16 ++ inp.sta_list.drop 16 =
          inp.sta_list := List.take_append_drop 16 _
      have hp : (inp.sta_list.take 16 ++ inp.sta_list.drop 16).Pairwise
          fun a b => a.mac ≠ b.mac := by rw [hsplit]; exact hdistinct
      exact (List.pairwise_append.mp hp).2.2
    rw [traffic_stats_get_clients] at hc
    split_ifs at hc with h1 h2
    · simp at hc
    · rw [collect_clients_eq] at hc
      have hcf := List.take_subset _ _ hc
      have hcm := (List.mem_filter.mp hcf).1
      rw [hclients] at hcm
      obtain ⟨d2, hd2, rfl⟩ := List.mem_map.mp hcm
      exact hcross d2 hd2 d hd
    · simp at hc

/-- Witness for C9: 20 stations with addresses 1..20 reported in one
tick on the freshly-initialized state. -/
theorem claim_C9_witness :
    (let inp : TickInput :=
      { current_time := 9, total_rx := 0, total_tx := 0, sta_list_ok := true,
        sta_list := (List.range 20).map fun n => ⟨n + 1, n + 100⟩ }
     inp.sta_list_ok = true ∧
     inp.sta_list.length = 20 ∧
     (((traffic_stats_update true inp (init_state 0)).g_clients.filter
         fun c => c.active) =
       (inp.sta_list.take 16).map
         (fun d => write_sta inp.current_time d zero_client) ∧
      ((traffic_stats_update true inp (init_state 0)).g_clients.filter
         fun c => c.active).length = 16 ∧
      (∀ (lock_ok nonnull : Bool) (max_clients : Int),
        ∀ d ∈ inp.sta_list.drop 16,
          ∀ c ∈ traffic_stats_get_clients lock_ok
              (traffic_stats_update true inp (init_state 0)) nonnull max_clients,
            c.mac ≠ d.mac))) :=
  ⟨rfl, by decide, claim_C9 0 _ rfl (by decide) (by decide)⟩

/-! ## Frame and error-handling claims -/

/-- C5: in an initialized state, when the bounded-timeout lock
acquisition fails, `traffic_stats_update` abandons the tick before any
mutation (the state is exactly as before the call), `traffic_stats_get`
leaves the caller-supplied output buffer untouched, and
`traffic_stats_get_clients` copies nothing and returns count 0 — the
lock timeout is never surfaced as an error value. -/
theorem claim_C5 (s : SysState) (inp : TickInput) (buf : traffic_stats_t)
    (max_clients : Int) (hinit : s.g_initialized = true) :
    traffic_stats_update false inp s = s ∧
    traffic_stats_get false s (some buf) = some buf ∧
    traffic_stats_get_clients false s true max_clients = [] := by
  refine ⟨?_, ?_, ?_⟩
  · simp [traffic_stats_update]
  · simp [traffic_stats_get, hinit]
  · simp only [traffic_stats_get_clients, hinit]
    split
    · rfl
    · rfl

/-- Witness for C5 at a concrete initialized state and input. -/
theorem claim_C5_witness :
    (init_state 7).g_initialized = true ∧
    (traffic_stats_update false ⟨9, 5, 5, false, []⟩ (init_state 7) = init_state 7 ∧
     traffic_stats_get false (init_state 7) (some ⟨1, 2, 3, 4, 5, 6, 7⟩) =
       some ⟨1, 2, 3, 4, 5, 6, 7⟩ ∧
     traffic_stats_get_clients false (init_state 7) true 4 = []) :=
  ⟨rfl, claim_C5 (init_state 7) ⟨9, 5, 5, false, []⟩ ⟨1, 2, 3, 4, 5, 6, 7⟩ 4 rfl⟩

/-- C7: in an initialized state with a successful lock acquisition,
`traffic_stats_reset` zeroes `rx_bytes`, `tx_bytes`, `rx_speed`,
`tx_speed`, `peak_rx_speed` and `peak_tx_speed`, re-stamps the start
time with the current time, and leaves every record of the client table
unchanged. -/
theorem claim_C7 (s : SysState) (t : Nat) (hinit : s.g_initialized = true) :
    (traffic_stats_reset true t s).g_stats.rx_bytes = 0 ∧
    (traffic_stats_reset true t s).g_stats.tx_bytes = 0 ∧
    (traffic_stats_reset true t s).g_stats.rx_speed = 0 ∧
    (traffic_stats_reset true t s).g_stats.tx_speed = 0 ∧
    (traffic_stats_reset true t s).g_stats.peak_rx_speed = 0 ∧
    (traffic_stats_reset true t s).g_stats.peak_tx_speed = 0 ∧
    (traffic_stats_reset true t s).g_start_time = t ∧
    (traffic_stats_reset true t s).g_clients = s.g_clients := by
  simp [traffic_stats_reset, hinit, zero_stats]

/-- Witness for C7 at a concrete state with nonzero statistics and a
nonempty client table. -/
theorem claim_C7_witness :
    (let s : SysState :=
      { g_stats := ⟨10, 20, 30, 40, 50, 60, 70⟩,
        g_clients := [⟨1, 2, 3, 4, 5, true⟩],
        g_start_time := 3, g_initialized := true,
        prev_rx_bytes := 10, prev_tx_bytes := 20, prev_update_time := 70 }
     (traffic_stats_reset true 99 s).g_stats.rx_bytes = 0 ∧
     (traffic_stats_reset true 99 s).g_stats.tx_bytes = 0 ∧
     (traffic_stats_reset true 99 s).g_stats.rx_speed = 0 ∧
     (traffic_stats_reset true 99 s).g_stats.tx_speed = 0 ∧
     (traffic_stats_reset true 99 s).g_stats.peak_rx_speed = 0 ∧
     (traffic_stats_reset true 99 s).g_stats.peak_tx_speed = 0 ∧
     (traffic_stats_reset true 99 s).g_start_time = 99 ∧
     (traffic_stats_reset true 99 s).g_clients = s.g_clients) :=
  claim_C7 _ 99 rfl

/-- C10: when `g_initialized` is false (before `traffic_stats_init`
succeeded, or after `traffic_stats_deinit`), every public entry point is
a total no-op on shared state: `traffic_stats_get` fills a non-NULL
output buffer with zeros and tolerates a NULL pointer,
`traffic_stats_get_clients` copies nothing and returns 0 (as it also
does, in any state, when the output array is NULL or
`max_clients <= 0`), and `traffic_stats_update`, `traffic_stats_reset`
and `traffic_stats_reset_peak` return without changing any state. -/
theorem claim_C10 (s s2 : SysState) (inp : TickInput) (buf : traffic_stats_t)
    (lock_ok nonnull : Bool) (max_clients bad_max : Int) (t : Nat)
    (huninit : s.g_initialized = false) (hbad : bad_max ≤ 0) :
    traffic_stats_get lock_ok s (some buf) = some zero_stats ∧
    traffic_stats_get lock_ok s none = none ∧
    traffic_stats_get_clients lock_ok s nonnull max_clients = [] ∧
    traffic_stats_get_clients lock_ok s2 false max_clients = [] ∧
    traffic_stats_get_clients lock_ok s2 nonnull bad_max = [] ∧
    traffic_stats_update lock_ok inp s = s ∧
    traffic_stats_reset lock_ok t s = s ∧
    traffic_stats_reset_peak lock_ok s = s := by
  refine ⟨?_, rfl, ?_, ?_, ?_, ?_, ?_, ?_⟩
  · simp [traffic_stats_get, huninit]
  · simp [traffic_stats_get_clients, huninit]
  · simp [traffic_stats_get_clients]
  · simp [traffic_stats_get_clients, hbad]
  · simp [traffic_stats_update, huninit]
  · simp [traffic_stats_reset, huninit]
  · simp [traffic_stats_reset_peak, huninit]

/-- Witness for C10 at a concrete uninitialized state. -/
theorem claim_C10_witness :
    (let s : SysState :=
      { g_stats := ⟨10, 20, 30, 40, 50, 60, 70⟩,
        g_clients := [⟨1, 2, 3, 4, 5, true⟩],
        g_start_time := 3, g_initialized := false,
        prev_rx_bytes := 10, prev_tx_bytes := 20, prev_update_time := 70 }
     traffic_stats_get true s (some ⟨1, 2, 3, 4, 5, 6, 7⟩) = some zero_stats ∧
     traffic_stats_get true s none = none ∧
     traffic_stats_get_clients true s true 4 = [] ∧
     traffic_stats_get_clients true (init_state 7) false 4 = [] ∧
     traffic_stats_get_clients true (init_state 7) true (-2) = [] ∧
     traffic_stats_update true ⟨9, 5, 5, false, []⟩ s = s ∧
     traffic_stats_reset true 99 s = s ∧
     traffic_stats_reset_peak true s = s) :=
  claim_C10 _ (init_state 7) ⟨9, 5, 5, false, []⟩ ⟨1, 2, 3, 4, 5, 6, 7⟩
    true true 4 (-2) 99 rfl (by decide)

end TrafficStats
